import Mathlib

/-!
Shallow embedding of `MonoSD/Marigold/marigold/albedo_pipeline.py`
(`MaterialPipeline`).  Machine floats are modelled as exact rationals;
numpy float32 special values get an explicit sum type.  External neural
modules (VAE encoder/decoder, U-Net, scheduler, text encoder) are opaque
function parameters: only the orchestration written in this repository is
embedded.
-/

/- ----------------------------------------------------------------
   Colorize stage (`__call__`, lines 239-243)
   ---------------------------------------------------------------- -/

/-- One float32 cell of the prediction array: a finite value (modelled as an
exact rational) or one of the special values NaN / +inf / -inf. -/
inductive F32 where
  | num (q : ℚ)
  | nan
  | posinf
  | neginf
  deriving DecidableEq

/-- Largest finite float32, `(2 - 2 ^ (-23)) * 2 ^ 127`: the value
`np.nan_to_num` substitutes for `+inf` on a float32 array by default. -/
def f32max : ℚ := 2 ^ 128 - 2 ^ 104

/-- Line 240, `np.nan_to_num(albedo_pred, nan=0.0)` on one cell: NaN becomes
`0.0`, infinities become the extreme finite float32 values. -/
def nan_to_num : F32 → ℚ
  | .num q => q
  | .nan => 0
  | .posinf => f32max
  | .neginf => -f32max

/-- Numpy `np.clip(x, 0, 1)` on one cell. -/
def npclip01 (x : ℚ) : ℚ := min (max x 0) 1

/-- Lines 240-242 on one cell: `np.nan_to_num(·, nan=0.0)`, then
`albedo_pred + 1 / 2` (Python operator precedence: this adds the scalar
`0.5`), then `np.clip(·, 0, 1)`, then `(· * 255).astype(np.uint8)`.  The
cast truncates toward zero; the clipped product is nonnegative, so it is a
floor. -/
def colorizeByte (v : F32) : ℕ := ⌊npclip01 (nan_to_num v + 1 / 2) * 255⌋₊

/-- The colorize stage applied cell-wise to the flattened prediction array
(lines 240-242). -/
def colorize (preds : List F32) : List ℕ := preds.map colorizeByte

/- ----------------------------------------------------------------
   Batch-size heuristic (`_find_batch_size`, lines 408-464)
   ---------------------------------------------------------------- -/

/-- The torch dtypes distinguished by the batch-size search table, plus a
catch-all for every other precision (for which the filtered table is
empty). -/
inductive DType where
  | float32
  | float16
  | other
  deriving DecidableEq

/-- One row of `bs_search_table`: resolution threshold, minimum total VRAM
in GiB, suggested batch size, and the dtype the row was measured for. -/
structure BSEntry where
  res : ℕ
  total_vram : ℕ
  bs : ℕ
  dtype : DType
  deriving DecidableEq

/-- The static search table of `_find_batch_size` (lines 423-445), in source
order. -/
def bs_search_table : List BSEntry :=
  [⟨768, 79, 35, .float32⟩,
   ⟨1024, 79, 20, .float32⟩,
   ⟨768, 39, 15, .float32⟩,
   ⟨1024, 39, 8, .float32⟩,
   ⟨768, 39, 30, .float16⟩,
   ⟨1024, 39, 15, .float16⟩,
   ⟨512, 23, 20, .float32⟩,
   ⟨768, 23, 7, .float32⟩,
   ⟨1024, 23, 3, .float32⟩,
   ⟨512, 23, 40, .float16⟩,
   ⟨768, 23, 18, .float16⟩,
   ⟨1024, 23, 10, .float16⟩,
   ⟨512, 10, 5, .float32⟩,
   ⟨768, 10, 2, .float32⟩,
   ⟨512, 10, 10, .float16⟩,
   ⟨768, 10, 5, .float16⟩,
   ⟨1024, 10, 3, .float16⟩]

/-- The comparison of `sorted(..., key=lambda k: (k["res"], -k["total_vram"]))`:
ascending resolution threshold, ties broken by descending VRAM. -/
def bsEntryLE (a b : BSEntry) : Bool :=
  a.res < b.res || (a.res == b.res && b.total_vram ≤ a.total_vram)

/-- Stable insertion of one entry into an already sorted list. -/
def insertSortedBS (x : BSEntry) : List BSEntry → List BSEntry
  | [] => [x]
  | y :: ys => if bsEntryLE x y then x :: y :: ys else y :: insertSortedBS x ys

/-- Stable sort implementing Python's `sorted` on the filtered table (line
452-455).  The table has no two rows with equal key, so any correct sort
produces the Python order. -/
def sortBS : List BSEntry → List BSEntry
  | [] => []
  | x :: xs => insertSortedBS x (sortBS xs)

/-- Lines 451-456: filter the table by dtype, sort it, and return the first
entry whose resolution threshold is at least `input_res` and whose VRAM
requirement is at most the available `total_vram` (GiB, a float modelled as
a rational). -/
def selectEntry (total_vram : ℚ) (input_res : ℕ) (dtype : DType) : Option BSEntry :=
  (sortBS (bs_search_table.filter (fun s => decide (s.dtype = dtype)))).find?
    (fun s => decide (input_res ≤ s.res) && decide ((s.total_vram : ℚ) ≤ total_vram))

/-- Lines 457-462: clamp a suggested batch size to the ensemble size.
`math.ceil(ensemble_size / 2)` on a natural number is `(ensemble_size + 1) / 2`. -/
def clampBS (ensemble_size bs : ℕ) : ℕ :=
  if ensemble_size < bs then ensemble_size
  else if (ensemble_size + 1) / 2 < bs ∧ bs < ensemble_size then (ensemble_size + 1) / 2
  else bs

/-- `_find_batch_size` (lines 408-464): returns 1 when no accelerator is
available (line 447-448) or no table entry matches; otherwise the clamped
suggested batch size of the selected entry. -/
def find_batch_size (cuda_available : Bool) (total_vram : ℚ)
    (ensemble_size input_res : ℕ) (dtype : DType) : ℕ :=
  if cuda_available = false then 1
  else
    match selectEntry total_vram input_res dtype with
    | some s => clampBS ensemble_size s.bs
    | none => 1

/- ----------------------------------------------------------------
   Resolution normalizer (`resize_max_res`, lines 385-406) and the
   shape of the preprocessing stage (`__call__`, lines 152-176)
   ---------------------------------------------------------------- -/

/-- The size of a PIL image, `img.size = (width, height)`.  Pixel content is
produced by the external PIL resampler and is not modelled. -/
structure PILSize where
  width : ℕ
  height : ℕ
  deriving DecidableEq

/-- `resize_max_res` (lines 385-406): `downscale_factor` is
`min(max_edge_resolution / width, max_edge_resolution / height)` in float
arithmetic (modelled exactly in ℚ); both new dimensions are truncated with
`int(...)`, a floor since the products are nonnegative. -/
def resize_max_res (img : PILSize) (max_edge_resolution : ℕ) : PILSize :=
  let downscale_factor : ℚ :=
    min ((max_edge_resolution : ℚ) / (img.width : ℚ)) ((max_edge_resolution : ℚ) / (img.height : ℚ))
  ⟨⌊(img.width : ℚ) * downscale_factor⌋₊, ⌊(img.height : ℚ) * downscale_factor⌋₊⟩

/-- `torch.Tensor.squeeze(0)` on a shape: drops the leading dimension only
when it has size 1 (line 171). -/
def squeeze0 : List ℕ → List ℕ
  | 1 :: rest => rest
  | s => s

/-- The spatial size (width, height) carried by a rank-3 tensor shape
`[C, H, W]`; shapes of any other rank are rejected by the rank assert, so
they are given a junk size. -/
def tensorSpatialSize : List ℕ → PILSize
  | [_, h, w] => ⟨w, h⟩
  | _ => ⟨0, 0⟩

/-- The two kinds of `input_image` accepted by `__call__` (lines 155-173),
viewed at the level of spatial dimensions. -/
inductive DimsInput where
  | image (img : PILSize)
  | tensor (shape : List ℕ)
  deriving DecidableEq

/-- The spatial size of the raw input, before preprocessing. -/
def inputSize : DimsInput → PILSize
  | .image img => img
  | .tensor shape => tensorSpatialSize (squeeze0 shape)

/-- The spatial size of `rgb_norm` after the preprocessing block (lines
152-176): a PIL image is resized by `resize_max_res` when
`processing_res > 0` (lines 155-158); a tensor input is only
`squeeze(0)`-ed (lines 170-173) and never resized. -/
def preprocessSize (inp : DimsInput) (processing_res : ℕ) : PILSize :=
  match inp with
  | .image img => if 0 < processing_res then resize_max_res img processing_res else img
  | .tensor shape => tensorSpatialSize (squeeze0 shape)

/- ----------------------------------------------------------------
   Ensembler (`_ensemble_brdfs`, lines 379-383)
   ---------------------------------------------------------------- -/

/-- `torch.mean(dim=0)` on a stack of flattened per-sample predictions:
cell-wise arithmetic mean over the batch dimension. -/
def tmean (brdf_preds : List (List ℚ)) : List ℚ :=
  match brdf_preds with
  | [] => []
  | p :: _ =>
    (List.range p.length).map
      (fun i => (brdf_preds.map (fun q => q.getD i 0)).sum / (brdf_preds.length : ℚ))

/-- `_ensemble_brdfs` (lines 379-383): the mean over the batch dimension
with `keepdim=True`, so the output batch dimension is 1. -/
def ensemble_brdfs (brdf_preds : List (List ℚ)) : List (List ℚ) := [tmean brdf_preds]

/- ----------------------------------------------------------------
   Latent scale bookkeeping (`_encode_rgb` lines 340-359,
   `_decode_brdf` lines 361-377)
   ---------------------------------------------------------------- -/

/-- Class constant, line 72 (the float literal `0.18215` exactly). -/
def rgb_latent_scale_factor : ℚ := 18215 / 100000

/-- Class constant, line 73. -/
def brdf_latent_scale_factor : ℚ := 18215 / 100000

/-- `_encode_rgb` (lines 340-359): the external encoder and `quant_conv`
produce a distribution whose mean is taken (deterministic encoding,
modelled by the opaque `encoderMean`); the latent is the mean multiplied
cell-wise by `rgb_latent_scale_factor` (line 358). -/
def encode_rgb (encoderMean : List ℚ → List ℚ) (rgb_in : List ℚ) : List ℚ :=
  (encoderMean rgb_in).map (fun x => x * rgb_latent_scale_factor)

/-- `_decode_brdf` (lines 361-377): the latent is divided cell-wise by
`brdf_latent_scale_factor` (line 373) and then handed to the external
decoder (channel slice, `post_quant_conv` and `decoder`, modelled by the
opaque `decoder`). -/
def decode_brdf (decoder : List ℚ → List ℚ) (brdf_latent : List ℚ) : List ℚ :=
  decoder (brdf_latent.map (fun x => x / brdf_latent_scale_factor))

/- ----------------------------------------------------------------
   Precondition validation (`__call__`, lines 143-176)
   ---------------------------------------------------------------- -/

/-- The two kinds of `input_image`, viewed at the level the asserts inspect:
a PIL image contributes its byte content after the RGB conversion (uint8
cells, so values in `Fin 256`), a tensor contributes its shape and cell
values. -/
inductive CallInput where
  | image (pixels : List (Fin 256))
  | tensor (shape : List ℕ) (vals : List ℚ)

/-- Line 166, `rgb / 255.0 * 2.0 - 1.0` on the byte content of a PIL
image. -/
def rgbNormBytes (pixels : List (Fin 256)) : List ℚ :=
  pixels.map (fun (b : Fin 256) => ((b : ℕ) : ℚ) / 255 * 2 - 1)

/-- The cell values of `rgb_norm` reaching the range assert on line 176. -/
def rgb_norm_vals : CallInput → List ℚ
  | .image pixels => rgbNormBytes pixels
  | .tensor _ vals => vals

/-- The assert block of `__call__` (lines 148-176), as a Boolean validator:
`processing_res >= 0`, `denoising_steps >= 1`, `ensemble_size >= 1`; for a
tensor input, rank 3 after `squeeze(0)` (line 173); and in both branches
`rgb_norm.min() >= -1.0 and rgb_norm.max() <= 1.0` (line 176).  All the
asserts run before any prediction work (the batching and denoising loop
start at line 179). -/
def validateCall (processing_res denoising_steps ensemble_size : ℤ)
    (inp : CallInput) : Bool :=
  decide (0 ≤ processing_res) && decide (1 ≤ denoising_steps) && decide (1 ≤ ensemble_size) &&
    (match inp with
     | .image _ => true
     | .tensor shape _ => decide ((squeeze0 shape).length = 3)) &&
    (rgb_norm_vals inp).all (fun v => decide (-1 ≤ v) && decide (v ≤ 1))

/- ----------------------------------------------------------------
   Helper lemmas
   ---------------------------------------------------------------- -/

theorem natFloor_le_natCast {q : ℚ} {n : ℕ} (h : q ≤ (n : ℚ)) : ⌊q⌋₊ ≤ n := by
  calc ⌊q⌋₊ ≤ ⌊(n : ℚ)⌋₊ := Nat.floor_le_floor h
  _ = n := Nat.floor_natCast n

theorem clampBS_le {ensemble_size bs : ℕ} :
    clampBS ensemble_size bs ≤ ensemble_size := by
  unfold clampBS
  split
  · exact le_refl _
  · split <;> omega

theorem downscale_factor_nonneg (w h m : ℕ) :
    0 ≤ min ((m : ℚ) / (w : ℚ)) ((m : ℚ) / (h : ℚ)) :=
  le_min (by positivity) (by positivity)

theorem range_map_getD (p : List ℚ) :
    (List.range p.length).map (fun i => p.getD i 0) = p := by
  apply List.ext_getElem
  · simp
  · intro i h1 h2
    simp only [List.getElem_map, List.getElem_range]
    rw [List.getD_eq_getElem _ _ h2]

theorem byte_norm_range (b : Fin 256) :
    -1 ≤ ((b : ℕ) : ℚ) / 255 * 2 - 1 ∧ ((b : ℕ) : ℚ) / 255 * 2 - 1 ≤ 1 := by
  have hb : ((b : ℕ) : ℚ) ≤ 255 := by exact_mod_cast Nat.lt_succ_iff.mp b.isLt
  have h0 : (0 : ℚ) ≤ ((b : ℕ) : ℚ) := by positivity
  have hdiv0 : (0 : ℚ) ≤ ((b : ℕ) : ℚ) / 255 := by positivity
  have hdiv1 : ((b : ℕ) : ℚ) / 255 ≤ 1 := by
    rw [div_le_one (by norm_num : (0 : ℚ) < 255)]
    exact hb
  constructor <;> nlinarith [hdiv0, hdiv1]

/- ----------------------------------------------------------------
   Claim theorems
   ---------------------------------------------------------------- -/

/-- C3: for every ensemble size at least 1, every input resolution, every
available-memory value and every precision, the batch size returned by
`_find_batch_size` never exceeds the requested ensemble size. -/
theorem find_batch_size_le_ensemble_size (cuda_available : Bool) (total_vram : ℚ)
    (ensemble_size input_res : ℕ) (dtype : DType) (h : 1 ≤ ensemble_size) :
    find_batch_size cuda_available total_vram ensemble_size input_res dtype ≤ ensemble_size := by
  unfold find_batch_size
  split
  · exact h
  · cases hsel : selectEntry total_vram input_res dtype with
    | none => exact h
    | some s => exact clampBS_le

theorem find_batch_size_le_ensemble_size_witness :
    1 ≤ 10 ∧ find_batch_size true 23 10 512 DType.float32 ≤ 10 :=
  ⟨by norm_num, find_batch_size_le_ensemble_size true 23 10 512 DType.float32 (by norm_num)⟩

/-- C4: whenever `_find_batch_size` selects a table entry whose suggested
batch size `bs` satisfies `ceil(ensemble_size / 2) < bs < ensemble_size`
(for naturals, `ceil(ensemble_size / 2) = (ensemble_size + 1) / 2`), the
returned batch size is exactly `ceil(ensemble_size / 2)`; and whenever
`bs > ensemble_size`, the returned batch size is exactly `ensemble_size`. -/
theorem find_batch_size_clamps_selected (total_vram : ℚ) (input_res : ℕ) (dtype : DType)
    (ensemble_size : ℕ) (s : BSEntry)
    (hsel : selectEntry total_vram input_res dtype = some s) :
    ((ensemble_size + 1) / 2 < s.bs → s.bs < ensemble_size →
        find_batch_size true total_vram ensemble_size input_res dtype = (ensemble_size + 1) / 2) ∧
    (ensemble_size < s.bs →
        find_batch_size true total_vram ensemble_size input_res dtype = ensemble_size) := by
  unfold find_batch_size
  rw [if_neg (by decide : ¬(true = false)), hsel]
  constructor
  · intro h1 h2
    show clampBS ensemble_size s.bs = (ensemble_size + 1) / 2
    unfold clampBS
    rw [if_neg (by omega), if_pos ⟨h1, h2⟩]
  · intro h1
    show clampBS ensemble_size s.bs = ensemble_size
    unfold clampBS
    rw [if_pos h1]

theorem find_batch_size_clamps_selected_witness :
    selectEntry 23 512 DType.float32 = some ⟨512, 23, 20, DType.float32⟩ ∧
      find_batch_size true 23 30 512 DType.float32 = 15 := by
  have h := find_batch_size_clamps_selected 23 512 DType.float32 30
    ⟨512, 23, 20, DType.float32⟩ (by decide)
  exact ⟨by decide, h.1 (by norm_num) (by norm_num)⟩

/-- C1 (evaluation at the failing input): the colorize stage of `__call__`
renders the in-range prediction value `0.5` as byte 255, while the remap of
`[-1, 1]` onto `[0, 255]` claimed by the spec gives `⌊((0.5 + 1) / 2) * 255⌋
= 191`: line 241 computes `albedo_pred + 1 / 2`, which by Python operator
precedence adds `0.5` instead of applying `(albedo_pred + 1) / 2`,
contradicting its own inline comment `[-1,1]->[0,1]`. -/
theorem colorizeByte_at_half :
    colorizeByte (F32.num (1 / 2)) = 255 ∧ ⌊((1 / 2 : ℚ) + 1) / 2 * 255⌋₊ = 191 := by
  constructor
  · norm_num [colorizeByte, npclip01, nan_to_num]
  · rw [Nat.floor_eq_iff (by norm_num)]
    norm_num

/-- C2 counterexample: a prediction array holding NaN at location 0 renders
there as byte 127, not byte 0. -/
theorem colorize_nan_not_rendered_zero :
    (colorize [F32.nan]).getD 0 0 = 127 ∧ (127 : ℕ) ≠ 0 := by
  refine ⟨?_, by norm_num⟩
  show colorizeByte F32.nan = 127
  norm_num [colorizeByte, npclip01, nan_to_num]
  rw [Nat.floor_eq_iff (by norm_num)]
  norm_num

/-- C2 (amended): a NaN cell of the prediction array is replaced by the
numeric value 0 before the display remap (line 240), so it renders as byte
127 — the image of 0 under the code's remap — and NaN never propagates into
the displayed image. -/
theorem colorize_nan_renders_midgray (l : List F32) (i : ℕ) (h : i < l.length)
    (hnan : l.get ⟨i, h⟩ = F32.nan) : (colorize l).getD i 0 = 127 := by
  have hlen : i < (colorize l).length := by simpa [colorize] using h
  rw [List.getD_eq_getElem _ _ hlen]
  simp only [colorize, List.getElem_map]
  rw [show l[i] = F32.nan from hnan]
  norm_num [colorizeByte, npclip01, nan_to_num]
  rw [Nat.floor_eq_iff (by norm_num)]
  norm_num

theorem colorize_nan_renders_midgray_witness :
    (colorize [F32.num 0, F32.nan]).getD 1 0 = 127 :=
  colorize_nan_renders_midgray [F32.num 0, F32.nan] 1 (by norm_num) (by rfl)

/-- C5 counterexample: a rank-3 tensor input of spatial size 600x600 with a
requested processing resolution of 512 is not passed through
`resize_max_res` (which would produce 512x512): the tensor branch of the
preprocessing block never resizes. -/
theorem preprocess_tensor_not_resized :
    preprocessSize (DimsInput.tensor [3, 600, 600]) 512 ≠
      resize_max_res (inputSize (DimsInput.tensor [3, 600, 600])) 512 := by
  norm_num [preprocessSize, inputSize, tensorSpatialSize, squeeze0, resize_max_res]

/-- C5 (amended): for every nonzero requested processing resolution, the
resolution normalizer is applied to PIL-image inputs, but an
already-normalized tensor input bypasses it and keeps its own spatial
size. -/
theorem preprocess_resizes_images_only (processing_res : ℕ) (h : 0 < processing_res) :
    (∀ img : PILSize,
        preprocessSize (DimsInput.image img) processing_res = resize_max_res img processing_res) ∧
    (∀ shape : List ℕ,
        preprocessSize (DimsInput.tensor shape) processing_res = tensorSpatialSize (squeeze0 shape)) :=
  ⟨fun img => by simp [preprocessSize, h], fun shape => rfl⟩

theorem preprocess_resizes_images_only_witness :
    preprocessSize (DimsInput.image ⟨600, 600⟩) 512 = resize_max_res ⟨600, 600⟩ 512 :=
  (preprocess_resizes_images_only 512 (by norm_num)).1 ⟨600, 600⟩

theorem floor_scale_bounds (w : ℕ) (s : ℚ) :
    (w : ℚ) * s - 1 < (⌊(w : ℚ) * s⌋₊ : ℚ) ∧
      (0 ≤ s → ((⌊(w : ℚ) * s⌋₊ : ℚ)) ≤ (w : ℚ) * s) := by
  constructor
  · have := Nat.lt_floor_add_one ((w : ℚ) * s)
    linarith
  · intro hs
    exact Nat.floor_le (by positivity)

/-- C6 counterexample: `resize_max_res` does not only downsize: a 100x100
image with target edge 512 is scaled up to 512x512, so the output width
exceeds the input width. -/
theorem resize_max_res_upscales :
    (resize_max_res ⟨100, 100⟩ 512).width = 512 ∧
      ¬ ((resize_max_res ⟨100, 100⟩ 512).width ≤ 100) := by
  constructor <;> norm_num [resize_max_res]

/-- C6 (amended): `resize_max_res` scales both dimensions by
`min(m / w, m / h)`.  When the target edge `m` is at most the longer input
edge this only downsizes (neither output dimension exceeds the input); when
`m` exceeds both input dimensions the image is upscaled.  In every case the
longer output edge fits within `m`, and each output dimension is within one
pixel (rounding down) of the exactly scaled dimension, which preserves the
aspect ratio up to that rounding. -/
theorem resize_max_res_bounds (w h m : ℕ) (hw : 0 < w) (hh : 0 < h) (hm : 0 < m) :
    (m ≤ max w h →
      (resize_max_res ⟨w, h⟩ m).width ≤ w ∧ (resize_max_res ⟨w, h⟩ m).height ≤ h) ∧
    (resize_max_res ⟨w, h⟩ m).width ≤ m ∧ (resize_max_res ⟨w, h⟩ m).height ≤ m ∧
    ((w : ℚ) * min ((m : ℚ) / (w : ℚ)) ((m : ℚ) / (h : ℚ)) - 1
        < ((resize_max_res ⟨w, h⟩ m).width : ℚ) ∧
      ((resize_max_res ⟨w, h⟩ m).width : ℚ)
        ≤ (w : ℚ) * min ((m : ℚ) / (w : ℚ)) ((m : ℚ) / (h : ℚ))) ∧
    ((h : ℚ) * min ((m : ℚ) / (w : ℚ)) ((m : ℚ) / (h : ℚ)) - 1
        < ((resize_max_res ⟨w, h⟩ m).height : ℚ) ∧
      ((resize_max_res ⟨w, h⟩ m).height : ℚ)
        ≤ (h : ℚ) * min ((m : ℚ) / (w : ℚ)) ((m : ℚ) / (h : ℚ))) := by
  have hw' : (0 : ℚ) < (w : ℚ) := by exact_mod_cast hw
  have hh' : (0 : ℚ) < (h : ℚ) := by exact_mod_cast hh
  have hs0 : 0 ≤ min ((m : ℚ) / (w : ℚ)) ((m : ℚ) / (h : ℚ)) := downscale_factor_nonneg w h m
  have hwidth : (resize_max_res ⟨w, h⟩ m).width
      = ⌊(w : ℚ) * min ((m : ℚ) / (w : ℚ)) ((m : ℚ) / (h : ℚ))⌋₊ := rfl
  have hheight : (resize_max_res ⟨w, h⟩ m).height
      = ⌊(h : ℚ) * min ((m : ℚ) / (w : ℚ)) ((m : ℚ) / (h : ℚ))⌋₊ := rfl
  have hwm : (w : ℚ) * min ((m : ℚ) / (w : ℚ)) ((m : ℚ) / (h : ℚ)) ≤ (m : ℚ) := by
    have h1 := mul_le_mul_of_nonneg_left
      (min_le_left ((m : ℚ) / (w : ℚ)) ((m : ℚ) / (h : ℚ))) hw'.le
    have h2 : (w : ℚ) * ((m : ℚ) / (w : ℚ)) = (m : ℚ) := by field_simp
    linarith
  have hhm : (h : ℚ) * min ((m : ℚ) / (w : ℚ)) ((m : ℚ) / (h : ℚ)) ≤ (m : ℚ) := by
    have h1 := mul_le_mul_of_nonneg_left
      (min_le_right ((m : ℚ) / (w : ℚ)) ((m : ℚ) / (h : ℚ))) hh'.le
    have h2 : (h : ℚ) * ((m : ℚ) / (h : ℚ)) = (m : ℚ) := by field_simp
    linarith
  refine ⟨?_, ?_, ?_, ?_, ?_⟩
  · intro hmax
    have hs1 : min ((m : ℚ) / (w : ℚ)) ((m : ℚ) / (h : ℚ)) ≤ 1 := by
      rcases max_choice w h with hc | hc
      · have hmw : (m : ℚ) ≤ (w : ℚ) := by exact_mod_cast hc ▸ hmax
        exact le_trans (min_le_left _ _) ((div_le_one hw').mpr hmw)
      · have hmh : (m : ℚ) ≤ (h : ℚ) := by exact_mod_cast hc ▸ hmax
        exact le_trans (min_le_right _ _) ((div_le_one hh').mpr hmh)
    constructor
    · rw [hwidth]
      exact natFloor_le_natCast (by nlinarith)
    · rw [hheight]
      exact natFloor_le_natCast (by nlinarith)
  · rw [hwidth]
    exact natFloor_le_natCast hwm
  · rw [hheight]
    exact natFloor_le_natCast hhm
  · rw [hwidth]
    exact ⟨(floor_scale_bounds w _).1, (floor_scale_bounds w _).2 hs0⟩
  · rw [hheight]
    exact ⟨(floor_scale_bounds h _).1, (floor_scale_bounds h _).2 hs0⟩

theorem resize_max_res_bounds_witness :
    (resize_max_res ⟨640, 480⟩ 512).width ≤ 640 ∧ (resize_max_res ⟨640, 480⟩ 512).width ≤ 512 := by
  have h := resize_max_res_bounds 640 480 512 (by norm_num) (by norm_num) (by norm_num)
  exact ⟨(h.1 (by norm_num)).1, h.2.1⟩

/-- C7: `resize_max_res` computes the uniform scale factor
`s = min(m / w, m / h)` and returns the image of dimensions
`(floor(w * s), floor(h * s))`; each dimension is within one pixel of the
exactly scaled value (so the aspect ratio is preserved within one-pixel
rounding error); and when the requested maximum resolution is 0 the
orchestrator skips resizing entirely. -/
theorem resize_max_res_formula (w h m : ℕ) (hw : 0 < w) (hh : 0 < h) (hm : 0 < m) :
    resize_max_res ⟨w, h⟩ m =
      ⟨⌊(w : ℚ) * min ((m : ℚ) / (w : ℚ)) ((m : ℚ) / (h : ℚ))⌋₊,
        ⌊(h : ℚ) * min ((m : ℚ) / (w : ℚ)) ((m : ℚ) / (h : ℚ))⌋₊⟩ ∧
    ((w : ℚ) * min ((m : ℚ) / (w : ℚ)) ((m : ℚ) / (h : ℚ)) - 1
        < (⌊(w : ℚ) * min ((m : ℚ) / (w : ℚ)) ((m : ℚ) / (h : ℚ))⌋₊ : ℚ) ∧
      (⌊(w : ℚ) * min ((m : ℚ) / (w : ℚ)) ((m : ℚ) / (h : ℚ))⌋₊ : ℚ)
        ≤ (w : ℚ) * min ((m : ℚ) / (w : ℚ)) ((m : ℚ) / (h : ℚ))) ∧
    ((h : ℚ) * min ((m : ℚ) / (w : ℚ)) ((m : ℚ) / (h : ℚ)) - 1
        < (⌊(h : ℚ) * min ((m : ℚ) / (w : ℚ)) ((m : ℚ) / (h : ℚ))⌋₊ : ℚ) ∧
      (⌊(h : ℚ) * min ((m : ℚ) / (w : ℚ)) ((m : ℚ) / (h : ℚ))⌋₊ : ℚ)
        ≤ (h : ℚ) * min ((m : ℚ) / (w : ℚ)) ((m : ℚ) / (h : ℚ))) ∧
    ∀ inp : DimsInput, preprocessSize inp 0 = inputSize inp := by
  have hs0 : 0 ≤ min ((m : ℚ) / (w : ℚ)) ((m : ℚ) / (h : ℚ)) := downscale_factor_nonneg w h m
  refine ⟨rfl, ?_, ?_, fun inp => ?_⟩
  · exact ⟨(floor_scale_bounds w _).1, (floor_scale_bounds w _).2 hs0⟩
  · exact ⟨(floor_scale_bounds h _).1, (floor_scale_bounds h _).2 hs0⟩
  · cases inp with
    | image img => simp [preprocessSize, inputSize]
    | tensor shape => rfl

theorem resize_max_res_formula_witness :
    resize_max_res ⟨640, 480⟩ 512 = ⟨512, 384⟩ := by
  have h := (resize_max_res_formula 640 480 512 (by norm_num) (by norm_num) (by norm_num)).1
  rw [h]
  norm_num

/-- C8: `_ensemble_brdfs` keeps a batch dimension of exactly 1, and on a
stack of `N ≥ 2` identical per-sample predictions the element-wise mean
over the batch dimension returns that single prediction exactly. -/
theorem ensemble_brdfs_mean_of_identical (N : ℕ) (p : List ℚ) (hN : 2 ≤ N) :
    ensemble_brdfs (List.replicate N p) = [p] ∧
      ∀ brdf_preds : List (List ℚ), (ensemble_brdfs brdf_preds).length = 1 := by
  refine ⟨?_, fun _ => rfl⟩
  obtain ⟨M, rfl⟩ : ∃ M, N = M + 1 := ⟨N - 1, by omega⟩
  unfold ensemble_brdfs
  congr 1
  rw [List.replicate_succ]
  show tmean (p :: List.replicate M p) = p
  unfold tmean
  have hcell : ∀ i : ℕ,
      ((p :: List.replicate M p).map (fun q => q.getD i 0)).sum
          / ((p :: List.replicate M p).length : ℚ) = p.getD i 0 := by
    intro i
    rw [List.map_cons, List.map_replicate, List.sum_cons, List.sum_replicate, nsmul_eq_mul]
    rw [List.length_cons, List.length_replicate]
    push_cast
    have hM1 : (M : ℚ) + 1 ≠ 0 := by positivity
    field_simp
    ring
  calc (List.range p.length).map
        (fun i => ((p :: List.replicate M p).map (fun q => q.getD i 0)).sum
          / ((p :: List.replicate M p).length : ℚ))
      = (List.range p.length).map (fun i => p.getD i 0) :=
        List.map_congr_left (fun i _ => hcell i)
    _ = p := range_map_getD p

theorem ensemble_brdfs_mean_of_identical_witness :
    ensemble_brdfs (List.replicate 3 [(1 : ℚ) / 2, -1 / 3]) = [[(1 : ℚ) / 2, -1 / 3]] :=
  (ensemble_brdfs_mean_of_identical 3 [(1 : ℚ) / 2, -1 / 3] (by norm_num)).1

/-- C9: the rgb and brdf latent scale factors are both the constant
`0.18215`; `_encode_rgb` multiplies the encoder mean by it and
`_decode_brdf` divides by it before decoding, so for every latent the
scaling applied at encode is exactly inverted before decode:
encode-then-unscale-then-decode equals encode-without-scaling-then-decode,
whatever the external encoder and decoder do. -/
theorem latent_scale_factor_symmetric :
    rgb_latent_scale_factor = 18215 / 100000 ∧
    brdf_latent_scale_factor = rgb_latent_scale_factor ∧
    ∀ (decoder encoderMean : List ℚ → List ℚ) (rgb_in : List ℚ),
      decode_brdf decoder (encode_rgb encoderMean rgb_in) = decoder (encoderMean rgb_in) := by
  refine ⟨rfl, rfl, fun decoder encoderMean rgb_in => ?_⟩
  unfold decode_brdf encode_rgb
  congr 1
  rw [List.map_map]
  have hc : brdf_latent_scale_factor ≠ 0 := by norm_num [brdf_latent_scale_factor]
  have hcomp : ((fun x => x / brdf_latent_scale_factor) ∘ fun x => x * rgb_latent_scale_factor)
      = id := by
    funext x
    show x * rgb_latent_scale_factor / brdf_latent_scale_factor = x
    rw [show rgb_latent_scale_factor = brdf_latent_scale_factor from rfl]
    exact mul_div_cancel_right₀ x hc
  rw [hcomp, List.map_id]

theorem rgbNormBytes_all_in_range (pixels : List (Fin 256)) :
    (rgbNormBytes pixels).all (fun v => decide (-1 ≤ v) && decide (v ≤ 1)) = true := by
  rw [List.all_eq_true]
  intro v hv
  have hv' : v ∈ pixels.map (fun (b : Fin 256) => ((b : ℕ) : ℚ) / 255 * 2 - 1) := hv
  obtain ⟨b, hb, rfl⟩ := List.mem_map.mp hv'
  simp only [Bool.and_eq_true, decide_eq_true_eq]
  exact byte_norm_range b

/-- C10: the assert block of `__call__` passes exactly when
`processing_res ≥ 0`, `denoising_steps ≥ 1`, `ensemble_size ≥ 1` and, for a
tensor input, the shape has rank 3 after dropping the leading batch
dimension and every value lies in `[-1, 1]`; when any of these fails the
call halts at the asserts, which all run before any prediction work. -/
theorem validateCall_iff (processing_res denoising_steps ensemble_size : ℤ)
    (inp : CallInput) :
    validateCall processing_res denoising_steps ensemble_size inp = true ↔
      (0 ≤ processing_res ∧ 1 ≤ denoising_steps ∧ 1 ≤ ensemble_size ∧
        ∀ shape vals, inp = CallInput.tensor shape vals →
          ((squeeze0 shape).length = 3 ∧ ∀ v ∈ vals, -1 ≤ v ∧ v ≤ 1)) := by
  cases inp with
  | image pixels =>
    simp only [validateCall, rgb_norm_vals, rgbNormBytes_all_in_range, Bool.and_true,
      Bool.and_eq_true, decide_eq_true_eq]
    constructor
    · rintro ⟨⟨h1, h2⟩, h3⟩
      exact ⟨h1, h2, h3, fun shape vals heq => by cases heq⟩
    · rintro ⟨h1, h2, h3, _⟩
      exact ⟨⟨h1, h2⟩, h3⟩
  | tensor shape vals =>
    simp only [validateCall, rgb_norm_vals, Bool.and_eq_true, decide_eq_true_eq,
      List.all_eq_true]
    constructor
    · rintro ⟨⟨⟨⟨h1, h2⟩, h3⟩, h4⟩, h5⟩
      refine ⟨h1, h2, h3, fun shape' vals' heq => ?_⟩
      injection heq with e1 e2
      subst e1
      subst e2
      exact ⟨h4, h5⟩
    · rintro ⟨h1, h2, h3, h4⟩
      obtain ⟨h5, h6⟩ := h4 shape vals rfl
      exact ⟨⟨⟨⟨h1, h2⟩, h3⟩, h5⟩, h6⟩
